import Mathlib

/-!
Verification of the conversational meal-intake pipeline of the aidiet-next
repository.  The relevant TypeScript source is shallowly embedded as Lean
definitions: pure fragments become Lean functions, the external generation
capability (the Gemini API) becomes an explicit parameter describing its
observable outcome, and JavaScript runtime primitives (`String.prototype.trim`,
`Number`, `Math.round`, `Array.prototype.slice(-n)`, regex marker stripping)
are modelled by structurally computable Lean functions over `List Char`,
`ℚ` and `Int`.
-/

/- ===================== JavaScript runtime primitives ===================== -/

/-- Model of `String.prototype.trim()`: remove leading and trailing
whitespace characters.  Implemented structurally over the character list so
that it computes by kernel reduction. -/
def jsTrim (s : String) : String :=
  String.mk (((s.data.dropWhile (fun c => c.isWhitespace)).reverse.dropWhile
    (fun c => c.isWhitespace)).reverse)

/-- Model of the JavaScript truthiness idiom `s || d` for strings: the empty
string is falsy, every other string is truthy. -/
def jsOrS (s d : String) : String := if s = "" then d else s

/-- Model of `o || d` where `o` is a string-valued field that may be absent
(`undefined`/`null`, modelled by `none`) or present (`some s`, with the empty
string still falsy). -/
def jsOrOpt (o : Option String) (d : String) : String :=
  match o with
  | none => d
  | some s => if s = "" then d else s

/-- Model of `Math.round` on finite numbers: round half toward positive
infinity, as JavaScript does (`Math.round(-2.5) = -2`). -/
def jsRound (x : ℚ) : ℤ := Int.floor (x + 1/2)

/-- Model of `String(n).padStart(2, "0")` applied to an integer. -/
def pad2 (n : Int) : String :=
  let s := toString n
  if s.length < 2 then "0" ++ s else s

/-- Decimal value of a digit list (used by the `Number(...)` model). -/
def digitsVal (l : List Char) : Nat :=
  l.foldl (fun a c => a * 10 + (c.toNat - 48)) 0

/-- Model of JavaScript `Number(s)` restricted to the integer-literal strings
that the date-splitting code can produce: after trimming, the empty string
converts to `0`, an optionally minus-signed digit string converts to its
value, and every other string converts to `NaN` (modelled by `none`).
Fractional, hexadecimal and exponent forms are outside the modelled input
space. -/
def jsNumber (s : String) : Option Int :=
  let t := (jsTrim s).data
  if t = [] then some 0
  else if t.all (fun c => c.isDigit) then some (digitsVal t)
  else
    match t with
    | '-' :: rest =>
        if rest ≠ [] ∧ rest.all (fun c => c.isDigit) then some (-(digitsVal rest : Int))
        else none
    | _ => none

/-- Model of `Array.prototype.slice(-n)`: the at most `n` most recent
elements of the list. -/
def takeLast (n : Nat) (l : List α) : List α := l.drop (l.length - n)

/-- Fuel-driven worker for the global regex replace of a literal marker plus
trailing whitespace: scan left to right, and at each position where the
literal marker occurs delete it together with the immediately following
whitespace run, then continue after the deleted region.  The fuel starts at
the length of the input, which the scan never exhausts early. -/
def stripMarkerFuel (marker : List Char) : Nat → List Char → List Char
  | 0, s => s
  | _ + 1, [] => []
  | n + 1, c :: rest =>
      if marker.isPrefixOf (c :: rest) then
        stripMarkerFuel marker n
          (((c :: rest).drop marker.length).dropWhile (fun ch => ch.isWhitespace))
      else c :: stripMarkerFuel marker n rest

/-- Global removal of a literal marker plus trailing whitespace, the model of
one `String.prototype.replace` call with a global marker regex. -/
def stripMarker (marker : List Char) (s : List Char) : List Char :=
  stripMarkerFuel marker s.length s

/-- The backtick character, written via its code point. -/
def btick : Char := Char.ofNat 96

/-- Model of `cleanJsonString` (src/lib/geminiService.ts lines 24-31): an
empty input becomes the string holding an empty JSON object, otherwise the
markdown code-fence markers (three backticks followed by `json`, then any
bare three-backtick run, each with trailing whitespace) are removed and the
result is trimmed. -/
def cleanJsonString (text : String) : String :=
  if text = "" then "\x7b\x7d"
  else
    let s1 := stripMarker [btick, btick, btick, 'j', 's', 'o', 'n'] text.data
    let s2 := stripMarker [btick, btick, btick] s1
    jsTrim (String.mk s2)

/- ===================== History sanitizer (chatWithLumi) ===================== -/

/-- Role of a conversation turn, `'user' | 'model'` in the source. -/
inductive Role
  | user
  | model
deriving DecidableEq, Repr

/-- A raw history entry as it reaches `chatWithLumi`: the `text` field of a
stored message may be absent or non-string at runtime (legacy or corrupt
data), which the sanitizer guards against with a type check; such contents
are modelled by `none`. -/
structure RawTurn where
  role : Role
  text : Option String
deriving DecidableEq, Repr

/-- A sanitized turn pushed onto the rebuilt history
(`role` plus a single text part in the source). -/
structure Turn where
  role : Role
  text : String
deriving DecidableEq, Repr

/-- The sanitizing loop of `chatWithLumi` (src/lib/geminiService.ts lines
352-368): walk the source history with the role of the last retained turn,
dropping entries with absent/non-string/whitespace-only text and entries
whose role repeats the last retained role. -/
def sanitizeLoop : Option Role → List RawTurn → List Turn
  | _, [] => []
  | lastRole, ⟨_, none⟩ :: rest => sanitizeLoop lastRole rest
  | lastRole, ⟨role, some t⟩ :: rest =>
      if jsTrim t = "" then sanitizeLoop lastRole rest
      else if some role = lastRole then sanitizeLoop lastRole rest
      else { role := role, text := t } :: sanitizeLoop (some role) rest

/-- Final fix-up of `chatWithLumi` (lines 373-375): if the sanitized history
ends in a user turn, drop that turn, because the new user message is appended
out-of-band by `sendMessage`. -/
def dropTrailingUser (l : List Turn) : List Turn :=
  match l.getLast? with
  | some t => if t.role = Role.user then l.dropLast else l
  | none => l

/-- The complete history sanitization performed inside `chatWithLumi` (lines
344-375): keep the 30 most recent entries, run the sanitizing loop, then
remove a trailing user turn. -/
def sanitizeHistory (history : List RawTurn) : List Turn :=
  dropTrailingUser (sanitizeLoop none (takeLast 30 history))

/- ===================== Sanitizer lemmas ===================== -/

theorem sanitizeLoop_length_le (l : List RawTurn) :
    ∀ r : Option Role, (sanitizeLoop r l).length ≤ l.length := by
  induction l with
  | nil => intro r; simp [sanitizeLoop]
  | cons h rest ih =>
    intro r
    obtain ⟨role, otext⟩ := h
    cases otext with
    | none =>
        simp only [sanitizeLoop]
        exact le_trans (ih r) (Nat.le_succ _)
    | some t =>
        simp only [sanitizeLoop]
        by_cases ht : jsTrim t = ""
        · rw [if_pos ht]
          exact le_trans (ih r) (Nat.le_succ _)
        · rw [if_neg ht]
          by_cases hr : some role = r
          · rw [if_pos hr]
            exact le_trans (ih r) (Nat.le_succ _)
          · rw [if_neg hr]
            simp only [List.length_cons]
            exact Nat.succ_le_succ (ih (some role))

theorem sanitizeLoop_text_nonempty (l : List RawTurn) :
    ∀ r : Option Role, ∀ u ∈ sanitizeLoop r l, jsTrim u.text ≠ "" := by
  induction l with
  | nil => intro r u hu; simp [sanitizeLoop] at hu
  | cons h rest ih =>
    intro r u hu
    obtain ⟨role, otext⟩ := h
    cases otext with
    | none =>
        simp only [sanitizeLoop] at hu
        exact ih r u hu
    | some t =>
        simp only [sanitizeLoop] at hu
        by_cases ht : jsTrim t = ""
        · rw [if_pos ht] at hu; exact ih r u hu
        · rw [if_neg ht] at hu
          by_cases hr : some role = r
          · rw [if_pos hr] at hu; exact ih r u hu
          · rw [if_neg hr] at hu
            rcases List.mem_cons.mp hu with hEq | hMem
            · rw [hEq]; exact ht
            · exact ih (some role) u hMem

theorem sanitizeLoop_chain (l : List RawTurn) :
    ∀ r : Option Role,
      List.Chain' (fun a b => a.role ≠ b.role) (sanitizeLoop r l) ∧
      ∀ u ∈ (sanitizeLoop r l).head?, some u.role ≠ r := by
  induction l with
  | nil =>
      intro r
      constructor
      · simp [sanitizeLoop]
      · intro u hu; simp [sanitizeLoop] at hu
  | cons h rest ih =>
    intro r
    obtain ⟨role, otext⟩ := h
    cases otext with
    | none =>
        simp only [sanitizeLoop]
        exact ih r
    | some t =>
        simp only [sanitizeLoop]
        by_cases ht : jsTrim t = ""
        · rw [if_pos ht]; exact ih r
        · rw [if_neg ht]
          by_cases hr : some role = r
          · rw [if_pos hr]; exact ih r
          · rw [if_neg hr]
            constructor
            · rw [List.chain'_cons']
              refine ⟨?_, (ih (some role)).1⟩
              intro y hy
              have hne := (ih (some role)).2 y hy
              show role ≠ y.role
              intro hcontra
              exact hne (by rw [hcontra])
            · intro u hu
              simp only [List.head?_cons, Option.mem_def, Option.some.injEq] at hu
              rw [← hu]
              exact hr

theorem dropTrailingUser_sublist (l : List Turn) :
    (dropTrailingUser l).Sublist l := by
  unfold dropTrailingUser
  cases hl : l.getLast? with
  | none => exact List.Sublist.refl l
  | some a =>
    show (if a.role = Role.user then l.dropLast else l).Sublist l
    by_cases ha : a.role = Role.user
    · simpa only [if_pos ha] using List.dropLast_sublist l
    · simpa only [if_neg ha] using List.Sublist.refl l

theorem dropTrailingUser_chain (l : List Turn)
    (hc : List.Chain' (fun a b => a.role ≠ b.role) l) :
    List.Chain' (fun a b => a.role ≠ b.role) (dropTrailingUser l) := by
  unfold dropTrailingUser
  cases hl : l.getLast? with
  | none => exact hc
  | some a =>
    show List.Chain' (fun a b => a.role ≠ b.role)
      (if a.role = Role.user then l.dropLast else l)
    by_cases ha : a.role = Role.user
    · rw [if_pos ha]; exact hc.init
    · rw [if_neg ha]; exact hc

theorem dropTrailingUser_last (l : List Turn)
    (hc : List.Chain' (fun a b => a.role ≠ b.role) l) :
    ∀ u, (dropTrailingUser l).getLast? = some u → u.role ≠ Role.user := by
  intro u
  unfold dropTrailingUser
  cases hl : l.getLast? with
  | none =>
    intro hu
    change l.getLast? = some u at hu
    rw [hl] at hu
    exact absurd hu (by simp)
  | some a =>
    intro hu
    change (if a.role = Role.user then l.dropLast else l).getLast? = some u at hu
    by_cases ha : a.role = Role.user
    · rw [if_pos ha] at hu
      obtain ⟨l', rfl⟩ := List.getLast?_eq_some_iff.mp hl
      rw [List.dropLast_concat] at hu
      obtain ⟨l'', rfl⟩ := List.getLast?_eq_some_iff.mp hu
      have h3 := (List.chain'_append.mp hc).2.2
      have h4 := h3 u (by rw [List.getLast?_concat]; rfl) a (by rfl)
      rw [ha] at h4
      exact h4
    · rw [if_neg ha] at hu
      rw [hl] at hu
      injection hu with hu
      rw [← hu]
      exact ha

theorem jsTrim_empty : jsTrim "" = "" := rfl

/-- C1: For every input history sequence, the sanitized transcript built
inside `chatWithLumi` has length at most 30, no two adjacent retained turns
share a role, every retained turn has non-empty (indeed non-whitespace)
string text, and the final retained turn never has role `user`. -/
theorem sanitizeHistory_invariants (history : List RawTurn) :
    (sanitizeHistory history).length ≤ 30 ∧
    List.Chain' (fun a b => a.role ≠ b.role) (sanitizeHistory history) ∧
    (∀ u ∈ sanitizeHistory history, u.text ≠ "" ∧ jsTrim u.text ≠ "") ∧
    (∀ u, (sanitizeHistory history).getLast? = some u → u.role ≠ Role.user) := by
  have hsub := dropTrailingUser_sublist (sanitizeLoop none (takeLast 30 history))
  have hchain := (sanitizeLoop_chain (takeLast 30 history) none).1
  refine ⟨?_, ?_, ?_, ?_⟩
  · have h1 : (sanitizeHistory history).length ≤
        (sanitizeLoop none (takeLast 30 history)).length := hsub.length_le
    have h2 := sanitizeLoop_length_le (takeLast 30 history) none
    have h3 : (takeLast 30 history).length ≤ 30 := by
      simp only [takeLast, List.length_drop]
      omega
    omega
  · exact dropTrailingUser_chain _ hchain
  · intro u hu
    have hmem := hsub.subset hu
    have htr := sanitizeLoop_text_nonempty (takeLast 30 history) none u hmem
    refine ⟨?_, htr⟩
    intro hcontra
    rw [hcontra] at htr
    exact htr jsTrim_empty
  · exact dropTrailingUser_last _ hchain

/- ===================== C6: duplicate consecutive user turns ===================== -/

/-- Concrete chat history with two consecutive non-empty user turns followed
by one model turn. -/
def dupUserHistory : List RawTurn :=
  [⟨Role.user, some "A"⟩, ⟨Role.user, some "B"⟩, ⟨Role.model, some "C"⟩]

/-- C6 counterexample: on two consecutive user turns followed by a model
turn, the sanitizer retains the EARLIER user turn's text and drops the later
one, contradicting the claim that the earlier duplicate is dropped and the
later text retained. -/
theorem sanitize_duplicate_keeps_earlier :
    sanitizeHistory dupUserHistory = [⟨Role.user, "A"⟩, ⟨Role.model, "C"⟩] ∧
    sanitizeHistory dupUserHistory ≠ [⟨Role.user, "B"⟩, ⟨Role.model, "C"⟩] := by
  constructor
  · decide
  · decide

/-- C6 amended: for every chat history of two consecutive user turns followed
by one model turn (outer texts non-blank), the sanitizer with cap 30 outputs
exactly [user, model], where the LATER duplicate user turn is the one dropped
and the earlier user turn's text is retained. -/
theorem sanitize_two_users_amended (t1 t2 t3 : String)
    (h1 : jsTrim t1 ≠ "") (h3 : jsTrim t3 ≠ "") :
    sanitizeHistory [⟨Role.user, some t1⟩, ⟨Role.user, some t2⟩, ⟨Role.model, some t3⟩] =
      [⟨Role.user, t1⟩, ⟨Role.model, t3⟩] := by
  by_cases h2 : jsTrim t2 = "" <;>
    simp [sanitizeHistory, takeLast, sanitizeLoop, dropTrailingUser, h1, h2, h3]

/-- Witness for the amended C6 theorem at concrete texts. -/
theorem sanitize_two_users_amended_witness :
    jsTrim "A" ≠ "" ∧
    sanitizeHistory [⟨Role.user, some "A"⟩, ⟨Role.user, some "B"⟩, ⟨Role.model, some "C"⟩] =
      [⟨Role.user, "A"⟩, ⟨Role.model, "C"⟩] :=
  ⟨by decide, sanitize_two_users_amended "A" "B" "C" (by decide) (by decide)⟩

/- ===================== API client acquisition ===================== -/

/-- Model of `getAiClient` (src/lib/geminiService.ts lines 6-17): the
effective API key is the AI-Studio key if present, else the environment
variable, collapsed here into one optional string; a missing or empty
(falsy) key throws `Error('API key is required')`, modelled as `Except.error`.
The returned client object carries no further state relevant to the claims. -/
def getAiClient (apiKey : Option String) : Except String Unit :=
  match apiKey with
  | none => Except.error "API key is required"
  | some k => if k = "" then Except.error "API key is required" else Except.ok ()

/- ===================== Coach persona generator ===================== -/

/-- Persona shape of `CoachProfile` (src/types, used by createNewCoach). -/
structure CoachProfile where
  name : String
  personality : String
  background : String
  tone : String
  greeting : String
  avatarUrl : String
deriving DecidableEq, Repr

/-- The built-in fallback coach `DEFAULT_COACH` from src/constants
(unnamed/part_000). -/
def DEFAULT_COACH : CoachProfile :=
  { name := "ルミ"
    personality := "親しみやすく、知的で、ポジティブ。否定はせず、常に「どうすればもっと良くなるか」を一緒に考える伴走者。"
    background := "最新の栄養学データセットから生まれたAI。数千人のダイエット成功データを学習済み。"
    tone := "丁寧ながらも、親しいコーチのような温かみのある言葉遣い（例：「お疲れ様！」「今日のランチ、彩りが良くて最高だね！」）。"
    avatarUrl := ""
    greeting := "こんにちは！これから一緒に頑張っていこうね！" }

/-- The persona fields parsed out of the model's JSON reply.  A missing or
empty `name` is collapsed to the empty string, matching the falsy check
`!personaData.name` in the source; the remaining fields are carried verbatim
(the source never validates them). -/
structure PersonaData where
  name : String
  personality : String
  background : String
  tone : String
  greeting : String
  imagePrompt : String
deriving DecidableEq, Repr

/-- Observable outcome of the persona-generation call inside
`createNewCoach`: the transport layer throws, the reply text fails to parse
as JSON, or a persona object is parsed. -/
inductive GenOutcome
  | throws
  | parseFails
  | parsed (d : PersonaData)
deriving DecidableEq, Repr

/-- Model of `createNewCoach` (src/lib/geminiService.ts lines 64-137).
`getAiClient` runs BEFORE the try block, so its exception propagates.  Inside
the try block every failure of the persona step (transport throw, JSON parse
throw, falsy `name`) is caught and the fixed default persona with empty
avatar is returned; on success the avatar is the image-generation result when
one was produced (`generateImage` itself never throws: it catches internally
and returns null, modelled by `none`). -/
def createNewCoach (apiKey : Option String) (gen : GenOutcome)
    (img : Option String) : Except String CoachProfile :=
  match getAiClient apiKey with
  | Except.error e => Except.error e
  | Except.ok _ =>
    match gen with
    | GenOutcome.throws => Except.ok { DEFAULT_COACH with avatarUrl := "" }
    | GenOutcome.parseFails => Except.ok { DEFAULT_COACH with avatarUrl := "" }
    | GenOutcome.parsed d =>
      if d.name = "" then Except.ok { DEFAULT_COACH with avatarUrl := "" }
      else Except.ok
        { name := d.name
          personality := d.personality
          background := d.background
          tone := d.tone
          greeting := d.greeting
          avatarUrl := img.getD "" }

/- ===================== Meal analyzer (analyzeMeal) ===================== -/

/-- Wall-clock reading at call time (`new Date()`), passed explicitly. -/
structure Now where
  year : Int
  month : Int
  day : Int
  hour : Int
  minute : Int
  second : Int
deriving DecidableEq, Repr

/-- Model of `todayStr` (src/lib/geminiService.ts line 152): the current
date rendered as year, zero-padded month and zero-padded day joined by
dashes. -/
def todayStr (now : Now) : String :=
  toString now.year ++ "-" ++ pad2 now.month ++ "-" ++ pad2 now.day

/-- A JavaScript `Date` object as observable through `getTime`: either an
Invalid Date (whose epoch value is NaN) or a calendar point with the raw,
constructor-style fields `year, monthIndex (0-based), day` and a
time-of-day.  Field normalization (month rollover) is irrelevant for the
in-range values the claims speak about. -/
inductive JsDate
  | invalid
  | valid (year monthIndex day hour minute second : Int)
deriving DecidableEq, Repr

/-- Structural model of `String.prototype.split("-")`. -/
def splitOnDash (l : List Char) : List (List Char) :=
  match l with
  | [] => [[]]
  | c :: rest =>
    let r := splitOnDash rest
    if c = '-' then [] :: r
    else
      match r with
      | [] => [[c]]
      | h :: t => (c :: h) :: t

/-- The timestamp computation of `analyzeMeal` (src/lib/geminiService.ts
lines 258-268): take the target date string when truthy, otherwise today's
string; split on dashes; convert the first three parts with `Number` (a
missing part behaves like NaN); build `new Date(y, m-1, d)` and stamp it
with the current time-of-day via `setHours`.  None of these JavaScript
operations throws, so the surrounding catch never fires; when any component
is NaN the result is an Invalid Date. -/
def resolveTimestamp (targetDate : Option String) (now : Now) : JsDate :=
  let s := jsOrOpt targetDate (todayStr now)
  let parts := (splitOnDash s.data).map (fun cs => jsNumber (String.mk cs))
  match parts.getD 0 none, parts.getD 1 none, parts.getD 2 none with
  | some y, some m, some d =>
      JsDate.valid y (m - 1) d now.hour now.minute now.second
  | _, _, _ => JsDate.invalid

/-- The `meal_data` object of the model's reply; each field may be absent. -/
structure MealData where
  name : Option String
  calories : Option ℚ
  protein : Option ℚ
  fat : Option ℚ
  carbs : Option ℚ
deriving DecidableEq, Repr

/-- The whole parsed reply of the meal-analysis call.  `is_food_related`
holds the truthiness of the parsed field (absent counts as false); string
fields are `none` when absent. -/
structure ParsedResult where
  is_food_related : Bool
  feedback : Option String
  confirmation_message : Option String
  target_date : Option String
  meal_data : Option MealData
deriving DecidableEq, Repr

/-- The `MealLog` record built by `analyzeMeal` (src/lib/geminiService.ts
lines 270-279).  The `id` field (`crypto.randomUUID()`) is a fresh opaque
identifier independent of every claim and is omitted; `imageUrl` is attached
later by the caller, not here. -/
structure MealLog where
  timestamp : JsDate
  name : String
  calories : ℚ
  protein : ℚ
  fat : ℚ
  carbs : ℚ
  confirmationMessage : String
deriving DecidableEq, Repr

/-- Construction of the proposed `MealLog` from the parsed reply (lines
258-279): `Math.round` for calories, `Math.round(x*10)/10` for each macro,
with `|| 0` substituting zero for absent fields (negative values are truthy
and pass through), and `|| default` fallbacks for the strings. -/
def mkMealLog (r : ParsedResult) (md : MealData) (now : Now) : MealLog :=
  { timestamp := resolveTimestamp r.target_date now
    name := jsOrOpt md.name "名称不明の食事"
    calories := ((jsRound (md.calories.getD 0) : ℤ) : ℚ)
    protein := ((jsRound ((md.protein.getD 0) * 10) : ℤ) : ℚ) / 10
    fat := ((jsRound ((md.fat.getD 0) * 10) : ℤ) : ℚ) / 10
    carbs := ((jsRound ((md.carbs.getD 0) * 10) : ℤ) : ℚ) / 10
    confirmationMessage := jsOrOpt r.confirmation_message "記録しました！" }

/-- Observable outcome of the generation call inside `analyzeMeal`:
the transport throws; the reply text is falsy (which the source turns into a
thrown error caught by the same outer catch); `JSON.parse` of the cleaned
text throws; or a result object is parsed. -/
inductive AnalyzeOutcome
  | transportThrow
  | emptyText
  | parseError
  | parsed (r : ParsedResult)
deriving DecidableEq, Repr

/-- The fixed parse-failure reply of `analyzeMeal` (line 251). -/
def parseFailText : String := "データの解析に失敗しました。もう一度試してください。"

/-- The fixed transport-failure reply of `analyzeMeal` (line 291). -/
def transportFailText : String := "ごめんね、ちょっと通信の調子が悪いみたい。もう一回送ってくれる？"

/-- Model of the response handling of `analyzeMeal` (src/lib/geminiService.ts
lines 242-294): JSON parse failure returns the fixed parse-failure text; a
transport throw or empty reply text falls into the outer catch and returns
the fixed soft fallback; a parsed reply returns the feedback (with default
when absent) and attaches a `MealLog` exactly when `is_food_related` is
truthy AND `meal_data` is present. -/
def analyzeMealResult (o : AnalyzeOutcome) (now : Now) : String × Option MealLog :=
  match o with
  | AnalyzeOutcome.transportThrow => (transportFailText, none)
  | AnalyzeOutcome.emptyText => (transportFailText, none)
  | AnalyzeOutcome.parseError => (parseFailText, none)
  | AnalyzeOutcome.parsed r =>
    let feedbackText := jsOrOpt r.feedback "承知しました。"
    if r.is_food_related then
      match r.meal_data with
      | some md => (feedbackText, some (mkMealLog r md now))
      | none => (feedbackText, none)
    else (feedbackText, none)

/- ===================== Free-form coaching responder (chatWithLumi) ===================== -/

/-- Observable outcome of the chat call inside `chatWithLumi`: anything in
the try block throws (history building itself cannot), or `sendMessage`
returns with an optional text. -/
inductive ChatOutcome
  | throws
  | reply (t : Option String)
deriving DecidableEq, Repr

/-- The fixed in-voice error fallback of `chatWithLumi` (line 400). -/
def chatErrorText : String := "思考回路にノイズが走ったようだ……もう一度言ってくれるか？"

/-- The fixed placeholder for a blank (after cleaning) reply (line 393). -/
def chatBlankText : String := "（言葉が見つからないようだ……）"

/-- The string produced by the try/catch body of `chatWithLumi` (lines
304-401): a thrown error is caught and yields the fixed in-voice fallback;
otherwise a falsy reply text is replaced by an ellipsis, artifacts are
stripped via `cleanJsonString`, a blank result yields the fixed placeholder,
and the trimmed text is returned. -/
def chatReply (o : ChatOutcome) : String :=
  match o with
  | ChatOutcome.throws => chatErrorText
  | ChatOutcome.reply t =>
    let text := jsOrS (t.getD "") "……"
    let text := cleanJsonString text
    if jsTrim text = "" then chatBlankText
    else jsTrim text

/-- Model of `chatWithLumi` (src/lib/geminiService.ts lines 297-402).
`getAiClient` runs BEFORE the try block, so a missing API key propagates as
an exception; everything after it is the caught body `chatReply`. -/
def chatWithLumi (apiKey : Option String) (o : ChatOutcome) : Except String String :=
  match getAiClient apiKey with
  | Except.error e => Except.error e
  | Except.ok _ => Except.ok (chatReply o)

/- ===================== Chat interface (ChatInterface.tsx) ===================== -/

/-- One chat message as held in the component state; `coachName` and
`coachAvatarUrl` are value snapshots taken at send time. -/
structure ChatMessage where
  id : String
  role : Role
  text : String
  timestamp : Int
  isLogConfirmation : Bool
  mealData : Option MealLog
  coachName : Option String
  coachAvatarUrl : Option String
deriving DecidableEq, Repr

/-- Model of `confirmMeal` (src/components/ChatInterface.tsx lines 160-169):
`onAddMeal(meal)` appends the meal to the persisted meal list (the parent's
`addMeal` handler appends it to state in every branch), and the message list
is mapped so that only the message with the given id has its
`isLogConfirmation` flag cleared and the confirmation text appended to its
text. -/
def confirmMeal (messageId : String) (meal : MealLog) (meals : List MealLog)
    (messages : List ChatMessage) : List MealLog × List ChatMessage :=
  let confirmText := jsOrS meal.confirmationMessage "登録しました！"
  (meals ++ [meal],
   messages.map (fun m =>
     if m.id = messageId then
       { m with isLogConfirmation := false, text := m.text ++ "\n\n✅ " ++ confirmText }
     else m))

/-- Model of the proposal-attaching step of `handleSend`
(src/components/ChatInterface.tsx lines 130-141): the model reply is
appended as a new message whose `isLogConfirmation` flag is the presence of
a detected meal and whose `mealData` carries it; the meal list itself is NOT
touched (persistence happens only in `confirmMeal`). -/
def attachProposal (meals : List MealLog) (messages : List ChatMessage)
    (responseText : String) (detectedMeal : Option MealLog) (msgId : String)
    (ts : Int) (coachName : Option String) (coachAvatar : Option String) :
    List MealLog × List ChatMessage :=
  (meals,
   messages ++ [{ id := msgId
                  role := Role.model
                  text := responseText
                  timestamp := ts
                  isLogConfirmation := detectedMeal.isSome
                  mealData := detectedMeal
                  coachName := coachName
                  coachAvatarUrl := coachAvatar }])

/- ===================== Image normalizer (handleImageSelect) ===================== -/

/-- The dimension computation of `handleImageSelect`
(src/components/ChatInterface.tsx lines 41-62) with `MAX_SIZE = 1024`: only
the longer edge, when it exceeds the bound, is scaled down to the bound with
the other edge scaled by the same factor; otherwise both dimensions are kept
(the canvas re-encodes to JPEG at quality 0.7 without resizing). -/
def resizeDims (w h : ℚ) : ℚ × ℚ :=
  if h < w then
    if 1024 < w then (1024, h * (1024 / w)) else (w, h)
  else
    if 1024 < h then (w * (1024 / h), 1024) else (w, h)

/- ===================== Shared concrete inputs ===================== -/

/-- Concrete wall-clock reading used by the concrete evaluations. -/
def exNow : Now :=
  { year := 2024, month := 5, day := 7, hour := 13, minute := 45, second := 9 }

/-- Parsed reply marking a food report with a fixed target date. -/
def exParsedFood : ParsedResult :=
  { is_food_related := true, feedback := some "OK", confirmation_message := none,
    target_date := some "2024-05-07", meal_data := none }

/-- Meal data with negative calorie and protein values. -/
def exMdNeg : MealData :=
  { name := none, calories := some (-100), protein := some (-(5 : ℚ)/2),
    fat := none, carbs := none }

/-- Meal data with every numeric field absent. -/
def exMdNone : MealData :=
  { name := none, calories := none, protein := none, fat := none, carbs := none }

/-- Successfully parsed reply in which `is_food_related` is true but the
conditionally required `meal_data` field and the required `feedback` field
are both absent. -/
def exMissingFeedback : ParsedResult :=
  { is_food_related := true, feedback := none, confirmation_message := none,
    target_date := none, meal_data := none }

/- ===================== C2: createNewCoach fallback ===================== -/

/-- C2 counterexample: with no API key configured, `getAiClient` runs before
the try block of `createNewCoach` and its exception propagates to the
caller, so `createNewCoach` does not always return a `CoachProfile`. -/
theorem createNewCoach_noKey_throws :
    createNewCoach none GenOutcome.throws none = Except.error "API key is required" := rfl

/-- C2 amended: provided an API key is configured, `createNewCoach` always
returns a `CoachProfile` and never propagates an exception, and every
failure of the persona-generation step (transport throw, JSON parse throw,
missing or empty required `name` field) yields the fixed default persona
with empty `avatarUrl`. -/
theorem createNewCoach_fallback_total (k : String) (hk : k ≠ "")
    (gen : GenOutcome) (img : Option String) :
    (∃ c, createNewCoach (some k) gen img = Except.ok c) ∧
    createNewCoach (some k) GenOutcome.throws img =
      Except.ok { DEFAULT_COACH with avatarUrl := "" } ∧
    createNewCoach (some k) GenOutcome.parseFails img =
      Except.ok { DEFAULT_COACH with avatarUrl := "" } ∧
    (∀ d : PersonaData, d.name = "" →
      createNewCoach (some k) (GenOutcome.parsed d) img =
        Except.ok { DEFAULT_COACH with avatarUrl := "" }) := by
  have hclient : getAiClient (some k) = Except.ok () := by
    simp [getAiClient, hk]
  refine ⟨?_, by simp [createNewCoach, hclient], by simp [createNewCoach, hclient], ?_⟩
  · cases gen with
    | throws =>
        exact ⟨{ DEFAULT_COACH with avatarUrl := "" }, by simp [createNewCoach, hclient]⟩
    | parseFails =>
        exact ⟨{ DEFAULT_COACH with avatarUrl := "" }, by simp [createNewCoach, hclient]⟩
    | parsed d =>
        by_cases hd : d.name = ""
        · exact ⟨{ DEFAULT_COACH with avatarUrl := "" },
            by simp [createNewCoach, hclient, hd]⟩
        · exact ⟨{ name := d.name, personality := d.personality,
                   background := d.background, tone := d.tone,
                   greeting := d.greeting, avatarUrl := img.getD "" },
            by simp [createNewCoach, hclient, hd]⟩
  · intro d hd
    simp [createNewCoach, hclient, hd]

/-- Witness for the amended C2 theorem at a concrete key and outcome. -/
theorem createNewCoach_fallback_total_witness :
    ("k" : String) ≠ "" ∧
    createNewCoach (some "k") GenOutcome.throws none =
      Except.ok { DEFAULT_COACH with avatarUrl := "" } :=
  ⟨by decide, (createNewCoach_fallback_total "k" (by decide) GenOutcome.throws none).2.1⟩

/- ===================== C3: numeric normalization ===================== -/

/-- C3 counterexample: a negative calorie value is NOT clamped to zero — it
is truthy in JavaScript, so `|| 0` keeps it and `Math.round` passes it
through; likewise a negative macro survives with one decimal place. -/
theorem mealLog_negative_not_clamped :
    (mkMealLog exParsedFood exMdNeg exNow).calories = -100 ∧
    (mkMealLog exParsedFood exMdNeg exNow).calories ≠ 0 ∧
    (mkMealLog exParsedFood exMdNeg exNow).protein = -(5 : ℚ)/2 := by
  refine ⟨?_, ?_, ?_⟩ <;>
    norm_num [mkMealLog, exMdNeg, exParsedFood, jsRound]

/-- C3 amended: for every parsed meal payload the constructed `MealLog` has
integer calories (nearest whole kcal) and macros with at most one decimal
place; a missing numeric field is treated as zero; a present numeric value —
including a negative one — is rounded, not clamped. -/
theorem mealLog_rounding (r : ParsedResult) (md : MealData) (now : Now) :
    (∃ n : ℤ, (mkMealLog r md now).calories = (n : ℚ)) ∧
    (∃ n : ℤ, (mkMealLog r md now).protein * 10 = (n : ℚ)) ∧
    (∃ n : ℤ, (mkMealLog r md now).fat * 10 = (n : ℚ)) ∧
    (∃ n : ℤ, (mkMealLog r md now).carbs * 10 = (n : ℚ)) ∧
    (md.calories = none → (mkMealLog r md now).calories = 0) ∧
    (md.protein = none → (mkMealLog r md now).protein = 0) ∧
    (md.fat = none → (mkMealLog r md now).fat = 0) ∧
    (md.carbs = none → (mkMealLog r md now).carbs = 0) ∧
    (∀ c : ℚ, md.calories = some c →
      (mkMealLog r md now).calories = ((jsRound c : ℤ) : ℚ)) := by
  have h10 : (10 : ℚ) ≠ 0 := by norm_num
  have hzero : ((jsRound ((0 : ℚ) * 10) : ℤ) : ℚ) / 10 = 0 := by
    norm_num [jsRound]
  refine ⟨⟨jsRound (md.calories.getD 0), rfl⟩,
          ⟨jsRound ((md.protein.getD 0) * 10), div_mul_cancel₀ _ h10⟩,
          ⟨jsRound ((md.fat.getD 0) * 10), div_mul_cancel₀ _ h10⟩,
          ⟨jsRound ((md.carbs.getD 0) * 10), div_mul_cancel₀ _ h10⟩,
          ?_, ?_, ?_, ?_, ?_⟩
  · intro h; simp [mkMealLog, h, jsRound]; norm_num
  · intro h; simpa [mkMealLog, h] using hzero
  · intro h; simpa [mkMealLog, h] using hzero
  · intro h; simpa [mkMealLog, h] using hzero
  · intro c hc; simp [mkMealLog, hc]

/-- Witness for the amended C3 theorem at concrete inputs. -/
theorem mealLog_rounding_witness :
    exMdNone.calories = none ∧
    (mkMealLog exParsedFood exMdNone exNow).calories = 0 ∧
    (mkMealLog exParsedFood exMdNone exNow).protein = 0 :=
  ⟨rfl, (mealLog_rounding exParsedFood exMdNone exNow).2.2.2.2.1 rfl,
        (mealLog_rounding exParsedFood exMdNone exNow).2.2.2.2.2.1 rfl⟩

/- ===================== C4: date resolution ===================== -/

/-- C4: an unparseable target date string produces an Invalid Date (NaN
timestamp), NOT the current date — the split/Number/Date pipeline never
throws, so the catch-based fallback to the current date is unreachable; a
missing (falsy) target date does fall back to the current calendar date, and
a parseable date is combined with the current time-of-day rather than
midnight. -/
theorem resolveTimestamp_unparseable_invalid :
    resolveTimestamp (some "notadate") exNow = JsDate.invalid ∧
    resolveTimestamp none exNow = JsDate.valid 2024 4 7 13 45 9 ∧
    resolveTimestamp (some "2023-01-15") exNow = JsDate.valid 2023 0 15 13 45 9 := by
  refine ⟨?_, ?_, ?_⟩ <;> decide

/- ===================== C5: failure-path messages ===================== -/

/-- C5 counterexample: a successfully parsed reply with the required
`feedback` field absent does NOT yield the fixed parse-failure message — the
source substitutes a default acknowledgement instead, so a missing required
field is not reported as a structural parse failure. -/
theorem missingField_not_parse_error :
    analyzeMealResult (AnalyzeOutcome.parsed exMissingFeedback) exNow =
      ("承知しました。", none) ∧
    ("承知しました。" : String) ≠ parseFailText := by
  exact ⟨rfl, by decide⟩

/-- C5 amended: malformed JSON yields the fixed terminal parse-failure
message with no meal; a thrown transport failure (or an empty reply text,
which the source converts into a throw caught by the same handler) yields
the distinct softer fallback message with no meal; the two messages differ.
A parseable reply with a missing required field is instead given a default
and is not treated as a parse failure. -/
theorem analyzeMeal_failure_paths (now : Now) :
    analyzeMealResult AnalyzeOutcome.parseError now = (parseFailText, none) ∧
    analyzeMealResult AnalyzeOutcome.transportThrow now = (transportFailText, none) ∧
    analyzeMealResult AnalyzeOutcome.emptyText now = (transportFailText, none) ∧
    parseFailText ≠ transportFailText :=
  ⟨rfl, rfl, rfl, by decide⟩

/- ===================== C7: confirmMeal frame conditions ===================== -/

/-- C7: confirming a meal proposal appends the meal to the persisted meal
list and modifies only the message with the given id — clearing its
log-confirmation flag and appending the confirmation text — while keeping
every message (the list length is unchanged, so nothing is deleted) and
leaving every other message identical; and attaching a proposal in
`handleSend` never touches the meal list, so an unconfirmed proposal is
never persisted. -/
theorem confirmMeal_spec (mid : String) (meal : MealLog) (meals : List MealLog)
    (msgs : List ChatMessage) :
    (confirmMeal mid meal meals msgs).1 = meals ++ [meal] ∧
    ((confirmMeal mid meal meals msgs).2).length = msgs.length ∧
    (∀ (i : Nat) (m : ChatMessage), msgs[i]? = some m →
      (m.id ≠ mid → ((confirmMeal mid meal meals msgs).2)[i]? = some m) ∧
      (m.id = mid → ((confirmMeal mid meal meals msgs).2)[i]? =
        some { m with isLogConfirmation := false,
                      text := m.text ++ "\n\n✅ " ++
                        jsOrS meal.confirmationMessage "登録しました！" })) ∧
    (∀ (rtext : String) (dm : Option MealLog) (mi : String) (ts : Int)
        (cn ca : Option String),
      (attachProposal meals msgs rtext dm mi ts cn ca).1 = meals) := by
  refine ⟨rfl, by simp [confirmMeal], ?_, fun _ _ _ _ _ _ => rfl⟩
  intro i m hm
  constructor
  · intro hne
    simp [confirmMeal, List.getElem?_map, hm, hne]
  · intro heq
    subst heq
    simp [confirmMeal, List.getElem?_map, hm]

/-- A concrete meal used by the concrete confirmations. -/
def exMeal : MealLog :=
  { timestamp := JsDate.invalid, name := "meal", calories := 100, protein := 1,
    fat := 2, carbs := 3, confirmationMessage := "" }

/-- A concrete message whose id differs from the confirmed one. -/
def exMsg : ChatMessage :=
  { id := "y", role := Role.model, text := "hi", timestamp := 0,
    isLogConfirmation := false, mealData := none, coachName := none,
    coachAvatarUrl := none }

/-- Witness for the C7 theorem at concrete inputs. -/
theorem confirmMeal_spec_witness :
    (confirmMeal "x" exMeal [] [exMsg]).1 = [exMeal] ∧
    ((confirmMeal "x" exMeal [] [exMsg]).2)[0]? = some exMsg :=
  ⟨by simpa using (confirmMeal_spec "x" exMeal [] [exMsg]).1,
   ((confirmMeal_spec "x" exMeal [] [exMsg]).2.2.1 0 exMsg rfl).1 (by decide)⟩

/- ===================== C8: chatWithLumi error handling ===================== -/

/-- C8 counterexample: with no API key configured, `getAiClient` runs before
the try block of `chatWithLumi` and its exception propagates, so
`chatWithLumi` does not return a string for every environment. -/
theorem chatWithLumi_noKey_throws :
    chatWithLumi none ChatOutcome.throws = Except.error "API key is required" := rfl

/-- C8 amended: provided an API key is configured, `chatWithLumi` always
returns a non-empty string and never throws: any error in the try block
yields the fixed in-voice fallback, a reply that is blank after cleaning
yields the fixed placeholder, a falsy (absent or empty) raw reply yields the
fixed ellipsis string, and all of these are non-empty and the fallback
differs from the placeholder. -/
theorem chatWithLumi_safe (k : String) (hk : k ≠ "") (o : ChatOutcome) :
    (∃ s, chatWithLumi (some k) o = Except.ok s ∧ s ≠ "") ∧
    chatWithLumi (some k) ChatOutcome.throws = Except.ok chatErrorText ∧
    chatWithLumi (some k) (ChatOutcome.reply (some " ")) = Except.ok chatBlankText ∧
    chatWithLumi (some k) (ChatOutcome.reply none) = Except.ok "……" ∧
    chatErrorText ≠ chatBlankText := by
  have hrun : ∀ o' : ChatOutcome, chatWithLumi (some k) o' = Except.ok (chatReply o') := by
    intro o'
    simp [chatWithLumi, getAiClient, hk]
  have hne : ∀ o' : ChatOutcome, chatReply o' ≠ "" := by
    intro o'
    cases o' with
    | throws => decide
    | reply t =>
      show (if jsTrim (cleanJsonString (jsOrS (t.getD "") "……")) = "" then chatBlankText
            else jsTrim (cleanJsonString (jsOrS (t.getD "") "……"))) ≠ ""
      by_cases hb : jsTrim (cleanJsonString (jsOrS (t.getD "") "……")) = ""
      · rw [if_pos hb]; decide
      · rw [if_neg hb]; exact hb
  refine ⟨⟨chatReply o, hrun o, hne o⟩, ?_, ?_, ?_, by decide⟩
  · rw [hrun ChatOutcome.throws]
    rfl
  · rw [hrun (ChatOutcome.reply (some " "))]
    exact congrArg Except.ok (by decide)
  · rw [hrun (ChatOutcome.reply none)]
    exact congrArg Except.ok (by decide)

/-- Witness for the amended C8 theorem at a concrete key and outcome. -/
theorem chatWithLumi_safe_witness :
    ("k" : String) ≠ "" ∧
    (∃ s, chatWithLumi (some "k") ChatOutcome.throws = Except.ok s ∧ s ≠ "") :=
  ⟨by decide, (chatWithLumi_safe "k" (by decide) ChatOutcome.throws).1⟩

/- ===================== C9: image resize bounds ===================== -/

/-- C9: an image whose longer edge is at most 1024 keeps its pixel
dimensions unchanged (no upscaling); an image whose longer edge exceeds 1024
is scaled so that the larger output edge equals 1024; in every case the
aspect ratio is preserved (cross-multiplied form) and neither dimension
grows. -/
theorem resizeDims_spec (w h : ℚ) (hw : 0 < w) (hh : 0 < h) :
    (max w h ≤ 1024 → resizeDims w h = (w, h)) ∧
    (1024 < max w h → max (resizeDims w h).1 (resizeDims w h).2 = 1024) ∧
    (resizeDims w h).1 * h = (resizeDims w h).2 * w ∧
    (resizeDims w h).1 ≤ w ∧ (resizeDims w h).2 ≤ h := by
  by_cases hwh : h < w
  · by_cases h1024 : 1024 < w
    · have hout : resizeDims w h = (1024, h * (1024 / w)) := by
        unfold resizeDims
        rw [if_pos hwh, if_pos h1024]
      rw [hout]
      dsimp only
      have key : h * (1024 / w) ≤ 1024 := by
        rw [← mul_div_assoc, div_le_iff₀ hw]
        nlinarith
      refine ⟨?_, ?_, ?_, h1024.le, ?_⟩
      · intro hmax
        exfalso
        have := le_max_left w h
        linarith
      · intro _
        exact max_eq_left key
      · field_simp
        ring
      · have hfle : 1024 / w ≤ 1 := (div_le_one hw).mpr h1024.le
        exact mul_le_of_le_one_right hh.le hfle
    · have hout : resizeDims w h = (w, h) := by
        unfold resizeDims
        rw [if_pos hwh, if_neg h1024]
      rw [hout]
      dsimp only
      refine ⟨fun _ => rfl, ?_, mul_comm w h, le_refl w, le_refl h⟩
      intro hmax
      exfalso
      rw [max_eq_left hwh.le] at hmax
      exact h1024 hmax
  · have hwle : w ≤ h := not_lt.mp hwh
    by_cases h1024 : 1024 < h
    · have hout : resizeDims w h = (w * (1024 / h), 1024) := by
        unfold resizeDims
        rw [if_neg hwh, if_pos h1024]
      rw [hout]
      dsimp only
      have key : w * (1024 / h) ≤ 1024 := by
        rw [← mul_div_assoc, div_le_iff₀ hh]
        nlinarith
      refine ⟨?_, ?_, ?_, ?_, h1024.le⟩
      · intro hmax
        exfalso
        have := le_max_right w h
        linarith
      · intro _
        exact max_eq_right key
      · field_simp
        ring
      · have hfle : 1024 / h ≤ 1 := (div_le_one hh).mpr h1024.le
        exact mul_le_of_le_one_right hw.le hfle
    · have hout : resizeDims w h = (w, h) := by
        unfold resizeDims
        rw [if_neg hwh, if_neg h1024]
      rw [hout]
      dsimp only
      refine ⟨fun _ => rfl, ?_, mul_comm w h, le_refl w, le_refl h⟩
      intro hmax
      exfalso
      rw [max_eq_right hwle] at hmax
      exact h1024 hmax

/-- Witness for the C9 theorem at concrete dimensions on both sides of the
bound. -/
theorem resizeDims_spec_witness :
    (0 : ℚ) < 2048 ∧ (0 : ℚ) < 1536 ∧
    ((1024 : ℚ) < max 2048 1536 →
      max (resizeDims 2048 1536).1 (resizeDims 2048 1536).2 = 1024) ∧
    (max (800 : ℚ) 600 ≤ 1024 → resizeDims 800 600 = (800, 600)) :=
  ⟨by norm_num, by norm_num,
   (resizeDims_spec 2048 1536 (by norm_num) (by norm_num)).2.1,
   (resizeDims_spec 800 600 (by norm_num) (by norm_num)).1⟩

/- ===================== C10: food-related reply without meal_data ===================== -/

/-- C10: a successfully parsed reply with `is_food_related` true but no
`meal_data` returns the feedback text (with default when absent) and no meal
proposal — behaving exactly like a non-food reply, with no parse error
reported. -/
theorem analyzeMeal_food_without_data (r : ParsedResult) (now : Now)
    (hf : r.is_food_related = true) (hm : r.meal_data = none) :
    analyzeMealResult (AnalyzeOutcome.parsed r) now =
      (jsOrOpt r.feedback "承知しました。", none) ∧
    analyzeMealResult (AnalyzeOutcome.parsed r) now =
      analyzeMealResult (AnalyzeOutcome.parsed { r with is_food_related := false }) now := by
  constructor
  · simp [analyzeMealResult, hf, hm]
  · simp [analyzeMealResult, hf, hm]

/-- Witness for the C10 theorem at a concrete parsed reply. -/
theorem analyzeMeal_food_without_data_witness :
    exMissingFeedback.is_food_related = true ∧
    analyzeMealResult (AnalyzeOutcome.parsed exMissingFeedback) exNow =
      ("承知しました。", none) := by
  refine ⟨rfl, ?_⟩
  have h := (analyzeMeal_food_without_data exMissingFeedback exNow rfl rfl).1
  simpa [exMissingFeedback, jsOrOpt] using h
